import Mathlib

/-!
Verification of the Evacuation-Analysis survey-aggregation scripts.

The repository is a set of pandas-based command-line scripts.  This file gives a
shallow embedding of the data model and of the operations the verified claims
are about, translated from the Python sources:

* `firstworkingprocessEvacuate.py` / `processEvacuate.py`: `process_data`
  (time-window filter, answer normalization, latest-response extraction per
  question group, inner merge on `user_id`);
* `geneteprocess.py`: `calculate_drought_answer_percentages` (per-entity
  percentage breakdown);
* `genetedatefilterprocess.py`: `calculate_aggregated_answer_percentages`
  (global percentage breakdown), the three-part output of
  `process_and_output_percentages` including the conditional breakdown on
  sessions whose answer to a "First" question was "2009", plus its
  column-check / empty-input / date-filter error handling.

Modelling conventions:
* A dataframe is a `List Row`; a cell that pandas would read as NaN is `none`.
* Timestamps (`created_at`) are integers (e.g. epoch seconds) after parsing by
  `pd.to_datetime`; exact percentages are rationals (`ℚ`), so the floating
  "sum to 100 within epsilon" claims become exact statements.
* `df.sort_values('created_at')` is modelled by the stable `List.insertionSort`
  (pandas sorts stably on the small frames these scripts handle; the spec's
  tie-break description presumes a stable sort).
* `pd.read_csv` level behaviour (no data at all vs. a header-only table) is
  modelled by the `CsvInput` type.
-/

set_option maxHeartbeats 1000000

namespace EvacAnalysis

/-- One survey event: a row of the input CSV after type conversion.  Optional
fields are `none` where the CSV cell is empty (pandas NaN). -/
structure Row where
  user_id : String
  hashed_user_id : String
  session_id : String
  step_name : Option String
  question : Option String
  answer : Option String
  created_at : Int
deriving DecidableEq, Repr

/-- Python `str(x)` applied to the `question` column: pandas `astype(str)`
turns NaN into the literal string "nan". -/
def strOfQuestion (q : Option String) : String :=
  match q with
  | some s => s
  | none => "nan"

/-- Python `s.startswith(pre)`: character-level prefix test. -/
def strStartsWith (s pre : String) : Bool :=
  pre.data.isPrefixOf s.data

/-- `df['answer'].replace({'Petowner': 'Pet Owner'})` applied to one cell. -/
def normalizeAnswer (a : Option String) : Option String :=
  a.map (fun s => if s = "Petowner" then "Pet Owner" else s)

/-- Answer normalization applied to a whole row. -/
def normalizeRow (r : Row) : Row :=
  { r with answer := normalizeAnswer r.answer }

/-- `df['step_name'].isin(group)`: NaN is never a member. -/
def inGroup (g : List String) (r : Row) : Bool :=
  match r.step_name with
  | some s => g.contains s
  | none => false

/-- Sort key of `df.sort_values('created_at')`. -/
def rowLE (a b : Row) : Prop :=
  a.created_at ≤ b.created_at

instance : DecidableRel rowLE := fun a b => Int.decLe a.created_at b.created_at

instance : IsTotal Row rowLE := ⟨fun a b => Int.le_total a.created_at b.created_at⟩

instance : IsTrans Row rowLE := ⟨fun _ _ _ h1 h2 => le_trans h1 h2⟩

/-- `df.sort_values('created_at')`, modelled as a stable sort. -/
def sortByCreated (l : List Row) : List Row :=
  List.insertionSort rowLE l

/-- `df.drop_duplicates('user_id', keep='last')`: keep the last occurrence of
each `user_id`, preserving the relative order of the kept rows. -/
def dedupKeepLast : List Row → List Row
  | [] => []
  | r :: l =>
    let d := dedupKeepLast l
    if d.any (fun s => s.user_id == r.user_id) then d else r :: d

/-- Latest-response extraction for a question group (`process_data` lines
25-30 / 37-42): filter to the group, sort by `created_at`, keep the last row
per user. -/
def latest_rows (g : List String) (df : List Row) : List Row :=
  dedupKeepLast (sortByCreated (df.filter (inGroup g)))

/-- The `player_types` extraction of `process_data`: most recent
player-select answer per user, projected to `(user_id, answer)`. -/
def player_types (df : List Row) : List (String × Option String) :=
  (latest_rows ["player_select", "playerselect"] df).map (fun r => (r.user_id, r.answer))

/-- The `evac_choices` extraction of `process_data`: most recent
evacuate-select answer per user, projected to `(user_id, answer)`. -/
def evac_choices (df : List Row) : List (String × Option String) :=
  (latest_rows ["evacuate_select"] df).map (fun r => (r.user_id, r.answer))

/-- A row of the merged output of `process_data`. -/
structure Merged where
  user_id : String
  player_type : Option String
  evacuate_choice : Option String
deriving DecidableEq, Repr

/-- `pd.merge(left, right, on='user_id', how='inner')` for the two
single-answer extractions: all key-matching pairs, ordered by the left frame. -/
def pd_merge (left right : List (String × Option String)) :
    List Merged :=
  left.flatMap (fun a =>
    (right.filter (fun b => b.1 == a.1)).map
      (fun b => { user_id := a.1, player_type := a.2, evacuate_choice := b.2 }))

/-- The `--start`/`--end` time-window filter of `process_data`
(`processEvacuate.py` lines 88-94): inclusive bounds, each optional. -/
def timeFilter (start_time end_time : Option Int) (df : List Row) : List Row :=
  let df1 :=
    match start_time with
    | some s => df.filter (fun r => decide (s ≤ r.created_at))
    | none => df
  match end_time with
  | some e => df1.filter (fun r => decide (r.created_at ≤ e))
  | none => df1

/-- Whether a timestamp lies in the (optional, inclusive) window. -/
def inWindow (start_time end_time : Option Int) (t : Int) : Prop :=
  (match start_time with
   | some s => s ≤ t
   | none => True) ∧
  (match end_time with
   | some e => t ≤ e
   | none => True)

/-- `process_data` of `processEvacuate.py` (the `--today` branch, which reads
the system clock, is outside the modelled fragment): time-window filter, empty
check (`return None`), answer normalization, the two latest-response
extractions and their inner merge. -/
def process_data (df : List Row) (start_time end_time : Option Int) :
    Option (List Merged) :=
  let df1 := timeFilter start_time end_time df
  if df1.isEmpty then none
  else
    let df2 := df1.map normalizeRow
    some (pd_merge (player_types df2) (evac_choices df2))

/-- Order used by `sort_values(by='percentage', ascending=False)`. -/
def pctGE (x y : String × ℚ) : Prop :=
  y.2 ≤ x.2

instance : DecidableRel pctGE := fun x y => inferInstanceAs (Decidable (y.2 ≤ x.2))

/-- Order used by `sort_values(by=['hashed_user_id', 'percentage'],
ascending=[True, False])`. -/
def userPctLE (x y : String × String × ℚ) : Prop :=
  x.1 < y.1 ∨ (x.1 = y.1 ∧ y.2.2 ≤ x.2.2)

instance : DecidableRel userPctLE := fun x y => by
  unfold userPctLE
  infer_instance

/-- `calculate_aggregated_answer_percentages` (`genetedatefilterprocess.py`
lines 5-39): filter questions by a name beginning, `value_counts` the answers
(NaN answers dropped), divide by the summed counts, return `(answer, pct)`
sorted by percentage descending.  Both early returns of the source produce an
empty frame. -/
def calculate_aggregated_answer_percentages (df_input : List Row) (pre : String) :
    List (String × ℚ) :=
  let filtered_questions := df_input.filter (fun r => strStartsWith (strOfQuestion r.question) pre)
  if filtered_questions.isEmpty then []
  else
    let answer_values := filtered_questions.filterMap (fun r => r.answer)
    let answer_counts := answer_values.dedup.map (fun a => (a, answer_values.count a))
    let total_answers : Nat := (answer_counts.map (fun c => c.2)).sum
    if total_answers = 0 then []
    else
      List.insertionSort pctGE
        (answer_counts.map (fun c => (c.1, ((c.2 : ℚ) / (total_answers : ℚ)) * 100)))

/-- `calculate_drought_answer_percentages` (`geneteprocess.py` lines 22-50),
as a pure function of the already-read dataframe (the source hardcodes the
"Now," beginning; it is a parameter here): group the matching rows by
`(hashed_user_id, answer)` (NaN answers dropped by `groupby`), divide each
count by the user's summed counts, return `(user, answer, pct)` sorted by
user then percentage descending. -/
def calculate_drought_answer_percentages (df : List Row) (pre : String) :
    List (String × String × ℚ) :=
  let filtered_questions := df.filter (fun r => strStartsWith (strOfQuestion r.question) pre)
  let pairs := filtered_questions.filterMap
    (fun r => r.answer.map (fun a => (r.hashed_user_id, a)))
  let users := (pairs.map (fun q => q.1)).dedup
  let rows := users.flatMap (fun u =>
    let user_answers := (pairs.filter (fun q => q.1 == u)).map (fun q => q.2)
    let total_answers : Nat := (user_answers.dedup.map (fun a => user_answers.count a)).sum
    user_answers.dedup.map (fun a =>
      (u, a, ((user_answers.count a : ℚ) / (total_answers : ℚ)) * 100)))
  List.insertionSort userPctLE rows

/-- The second output block of `process_and_output_percentages` (lines
97-112): share of "2009" among answers to questions starting with "First";
`none` when no such question occurs. -/
def second_output (df : List Row) : Option ℚ :=
  let first_questions := df.filter (fun r => strStartsWith (strOfQuestion r.question) "First")
  if first_questions.isEmpty then none
  else
    some
      (((first_questions.filter (fun r => r.answer == some "2009")).length : ℚ) /
          (first_questions.length : ℚ) * 100)

/-- Lines 118-120: the session ids where some question starting with "First"
was answered exactly "2009". -/
def sessions_with_2009 (df : List Row) : List String :=
  (((df.filter (fun r => strStartsWith (strOfQuestion r.question) "First")).filter
      (fun r => r.answer == some "2009")).map (fun r => r.session_id)).dedup

/-- Result of the third output block: the distinct reportable states. -/
inductive ThirdOut where
  | noSessions
  | noNow
  | table (t : List (String × ℚ))
deriving Repr

/-- The third output block of `process_and_output_percentages` (lines
115-136): conditional breakdown of "Now," questions over the sessions whose
"First" answer was "2009". -/
def third_output (df : List Row) : ThirdOut :=
  let s := sessions_with_2009 df
  if s.isEmpty then ThirdOut.noSessions
  else
    let filtered_df := df.filter (fun r => s.contains r.session_id)
    let b := calculate_aggregated_answer_percentages filtered_df "Now,"
    if b.isEmpty then ThirdOut.noNow else ThirdOut.table b

/-- What `pd.read_csv(sys.stdin)` produced: either nothing parsable at all
(`pd.errors.EmptyDataError`) or a table with a column list and (possibly
zero) rows. -/
inductive CsvInput where
  | empty
  | table (cols : List String) (rows : List Row)

/-- The reportable outcomes of `process_and_output_percentages`. -/
inductive DFOutcome where
  | errMissing (missing : List String)
  | errEmptyData
  | gracefulNoData
  | report (first : List (String × ℚ)) (second : Option ℚ) (third : ThirdOut)

/-- Required columns of `genetedatefilterprocess.py` (line 59). -/
def required_cols : List String :=
  ["hashed_user_id", "question", "answer", "session_id", "created_at"]

/-- `process_and_output_percentages` (`genetedatefilterprocess.py` lines
41-144) as a function from the parsed input and the (already parsed)
`--start-date` value to its outcome.  Rows carry parsed timestamps, so the
`to_datetime`/`dropna` step is the identity here; the unparsable-date branch
(`ValueError`, exit 1) is outside the modelled fragment since `start_date`
arrives already parsed. -/
def process_and_output_percentages (input : CsvInput) (start_date : Option Int) :
    DFOutcome :=
  match input with
  | CsvInput.empty => DFOutcome.errEmptyData
  | CsvInput.table cols rows =>
    let missing := required_cols.filter (fun c => !cols.contains c)
    if !missing.isEmpty then DFOutcome.errMissing missing
    else
      match start_date with
      | some s =>
        let df := rows.filter (fun r => decide (s ≤ r.created_at))
        if df.isEmpty then DFOutcome.gracefulNoData
        else
          DFOutcome.report (calculate_aggregated_answer_percentages df "Now,")
            (second_output df) (third_output df)
      | none =>
        DFOutcome.report (calculate_aggregated_answer_percentages rows "Now,")
          (second_output rows) (third_output rows)

/-- Exit status of the script for each outcome (`sys.exit(1)` on the error
paths, 0 otherwise). -/
def exit_code : DFOutcome → Nat
  | DFOutcome.errMissing _ => 1
  | DFOutcome.errEmptyData => 1
  | DFOutcome.gracefulNoData => 0
  | DFOutcome.report _ _ _ => 0

/-- The reportable outcomes of `calculate_drought_answer_percentages`'s
enclosing script (`geneteprocess.py`). -/
inductive DroughtOutcome where
  | errMissing (missing : List String)
  | errEmptyData
  | noNowMsg
  | report (t : List (String × String × ℚ))

/-- Required columns of `geneteprocess.py` (line 15). -/
def drought_required_cols : List String :=
  ["hashed_user_id", "question", "answer"]

/-- The whole of `geneteprocess.py`'s main function as a function of the
parsed input. -/
def run_drought_script (input : CsvInput) : DroughtOutcome :=
  match input with
  | CsvInput.empty => DroughtOutcome.errEmptyData
  | CsvInput.table cols rows =>
    let missing := drought_required_cols.filter (fun c => !cols.contains c)
    if !missing.isEmpty then DroughtOutcome.errMissing missing
    else if (rows.filter (fun r => strStartsWith (strOfQuestion r.question) "Now,")).isEmpty then
      DroughtOutcome.noNowMsg
    else DroughtOutcome.report (calculate_drought_answer_percentages rows "Now,")

/-- Exit status of `geneteprocess.py` for each outcome. -/
def drought_exit_code : DroughtOutcome → Nat
  | DroughtOutcome.errMissing _ => 1
  | DroughtOutcome.errEmptyData => 1
  | DroughtOutcome.noNowMsg => 0
  | DroughtOutcome.report _ => 0

/-- The non-NaN answers of the rows matching a question beginning: the
population a global breakdown counts over. -/
def matchedAnswerValues (df : List Row) (pre : String) : List String :=
  (df.filter (fun r => strStartsWith (strOfQuestion r.question) pre)).filterMap
    (fun r => r.answer)

/-- The non-NaN answers of one user's rows matching a question beginning:
the population a per-entity breakdown counts over for that user. -/
def userAnswerValues (df : List Row) (pre : String) (u : String) : List String :=
  ((df.filter (fun r => strStartsWith (strOfQuestion r.question) pre)).filter
      (fun r => r.hashed_user_id == u)).filterMap (fun r => r.answer)

/-- The later-on-ties maximum by `created_at`: the row `drop_duplicates
keep='last'` retains after a stable sort. -/
def argmaxLast : List Row → Option Row
  | [] => none
  | a :: l =>
    match argmaxLast l with
    | none => some a
    | some b => if a.created_at ≤ b.created_at then some b else some a

/-! ### Helper lemmas about `dedupKeepLast` -/

theorem any_user_dedupKeepLast (l : List Row) :
    ∀ u, (dedupKeepLast l).any (fun s => s.user_id == u) =
      l.any (fun s => s.user_id == u) := by
  induction l with
  | nil => intro u; rfl
  | cons r l ih =>
    intro u
    by_cases h : (dedupKeepLast l).any (fun s => s.user_id == r.user_id) = true
    · simp only [dedupKeepLast, h, if_true, List.any_cons, ih u]
      by_cases hu : r.user_id = u
      · subst hu
        have hl : l.any (fun s => s.user_id == r.user_id) = true := (ih r.user_id) ▸ h
        simp [hl]
      · simp [beq_eq_false_iff_ne.2 hu]
    · simp only [Bool.not_eq_true] at h
      simp only [dedupKeepLast, h, Bool.false_eq_true, if_false, List.any_cons, ih u]

theorem filter_user_dedupKeepLast (l : List Row) (u : String) :
    (dedupKeepLast l).filter (fun s => s.user_id == u) =
      ((l.filter (fun s => s.user_id == u)).getLast?).toList := by
  induction l with
  | nil => rfl
  | cons r l ih =>
    by_cases h : (dedupKeepLast l).any (fun s => s.user_id == r.user_id) = true
    · have hl : l.any (fun s => s.user_id == r.user_id) = true :=
        (any_user_dedupKeepLast l r.user_id) ▸ h
      simp only [dedupKeepLast, h, if_true]
      rw [ih, List.filter_cons]
      by_cases hu : r.user_id = u
      · subst hu
        have hne : l.filter (fun s => s.user_id == r.user_id) ≠ [] := by
          rw [List.any_eq_true] at hl
          obtain ⟨x, hx, hxe⟩ := hl
          intro hemp
          have hmem : x ∈ l.filter (fun s => s.user_id == r.user_id) :=
            List.mem_filter.2 ⟨hx, hxe⟩
          rw [hemp] at hmem
          exact (List.not_mem_nil x) hmem
        obtain ⟨y, l2, hyl⟩ := List.exists_cons_of_ne_nil hne
        simp only [beq_self_eq_true, if_true, hyl, List.getLast?_cons_cons]
      · simp [beq_eq_false_iff_ne.2 hu]
    · simp only [Bool.not_eq_true] at h
      simp only [dedupKeepLast, h, Bool.false_eq_true, if_false]
      rw [List.filter_cons, List.filter_cons]
      by_cases hu : r.user_id = u
      · subst hu
        have hlu : l.any (fun s => s.user_id == r.user_id) = false :=
          (any_user_dedupKeepLast l r.user_id) ▸ h
        rw [List.any_eq_false] at hlu
        have hfl : l.filter (fun s => s.user_id == r.user_id) = [] :=
          List.filter_eq_nil_iff.2 hlu
        have hfd : (dedupKeepLast l).filter (fun s => s.user_id == r.user_id) = [] := by
          rw [ih, hfl]; rfl
        simp only [beq_self_eq_true, if_true, hfd, hfl]
        rfl
      · simp only [beq_eq_false_iff_ne.2 hu, Bool.false_eq_true, if_false]
        exact ih

theorem dedupKeepLast_sublist (l : List Row) : (dedupKeepLast l).Sublist l := by
  induction l with
  | nil => exact List.Sublist.refl []
  | cons r l ih =>
    by_cases h : (dedupKeepLast l).any (fun s => s.user_id == r.user_id) = true
    · simp only [dedupKeepLast, h, if_true]
      exact ih.trans (List.sublist_cons_self r l)
    · simp only [Bool.not_eq_true] at h
      simp only [dedupKeepLast, h, Bool.false_eq_true, if_false]
      exact ih.cons_cons r

theorem dedupKeepLast_users_nodup (l : List Row) :
    (dedupKeepLast l).Pairwise (fun a b => a.user_id ≠ b.user_id) := by
  induction l with
  | nil => exact List.Pairwise.nil
  | cons r l ih =>
    by_cases h : (dedupKeepLast l).any (fun s => s.user_id == r.user_id) = true
    · simp only [dedupKeepLast, h, if_true]; exact ih
    · simp only [Bool.not_eq_true] at h
      simp only [dedupKeepLast, h, Bool.false_eq_true, if_false]
      refine List.Pairwise.cons ?_ ih
      intro b hb hrb
      rw [List.any_eq_false] at h
      have hnb := h b hb
      simp only [beq_iff_eq] at hnb
      exact hnb hrb.symm

theorem dedupKeepLast_eq_self (l : List Row)
    (h : l.Pairwise (fun a b => a.user_id ≠ b.user_id)) : dedupKeepLast l = l := by
  induction l with
  | nil => rfl
  | cons r l ih =>
    rw [List.pairwise_cons] at h
    have hrec : dedupKeepLast l = l := ih h.2
    have hany : l.any (fun s => s.user_id == r.user_id) = false := by
      rw [List.any_eq_false]
      intro b hb
      simp only [beq_iff_eq]
      exact fun hbe => (h.1 b hb) hbe.symm
    simp only [dedupKeepLast, hrec, hany, Bool.false_eq_true, if_false]

/-! ### Helper lemmas about the stable sort by `created_at` -/

theorem orderedInsert_of_forall_le (a : Row) (l : List Row)
    (h : ∀ b ∈ l, rowLE a b) : List.orderedInsert rowLE a l = a :: l := by
  cases l with
  | nil => rfl
  | cons b t =>
    have hab : rowLE a b := h b (List.mem_cons_self b t)
    simp only [List.orderedInsert, if_pos hab]

theorem filter_orderedInsert (p : Row → Bool) (a : Row) (l : List Row)
    (hs : List.Sorted rowLE l) :
    (List.orderedInsert rowLE a l).filter p =
      if p a then List.orderedInsert rowLE a (l.filter p) else l.filter p := by
  induction l with
  | nil =>
    simp only [List.orderedInsert, List.filter_nil]
    cases hpa : p a <;> simp [List.filter_cons, hpa]
  | cons b t ih =>
    have hst : List.Sorted rowLE t := hs.of_cons
    by_cases hab : rowLE a b
    · rw [List.orderedInsert_of_le _ _ hab]
      cases hpa : p a with
      | true =>
        cases hpb : p b with
        | true =>
          rw [if_pos rfl, List.filter_cons_of_pos hpa, List.filter_cons_of_pos hpb,
            List.orderedInsert_of_le _ _ hab]
        | false =>
          rw [if_pos rfl, List.filter_cons_of_pos hpa, List.filter_cons_of_neg (by simp [hpb])]
          have hall : ∀ c ∈ t.filter p, rowLE a c := by
            intro c hc
            have hct : c ∈ t := List.mem_of_mem_filter hc
            exact trans_of rowLE hab (List.rel_of_sorted_cons hs c hct)
          rw [orderedInsert_of_forall_le a _ hall]
      | false =>
        rw [if_neg (by simp), List.filter_cons_of_neg (by simp [hpa])]
    · simp only [List.orderedInsert, if_neg hab]
      cases hpa : p a with
      | true =>
        cases hpb : p b with
        | true =>
          rw [if_pos rfl, List.filter_cons_of_pos hpb, List.filter_cons_of_pos hpb,
            List.orderedInsert, if_neg hab]
          rw [ih hst, if_pos hpa]
        | false =>
          rw [if_pos rfl, List.filter_cons_of_neg (by simp [hpb]),
            List.filter_cons_of_neg (by simp [hpb])]
          rw [ih hst, if_pos hpa]
      | false =>
        rw [if_neg (by simp)]
        cases hpb : p b with
        | true =>
          rw [List.filter_cons_of_pos hpb, List.filter_cons_of_pos hpb]
          rw [ih hst, if_neg (by simp [hpa])]
        | false =>
          rw [List.filter_cons_of_neg (by simp [hpb]), List.filter_cons_of_neg (by simp [hpb])]
          rw [ih hst, if_neg (by simp [hpa])]

theorem filter_sortByCreated (p : Row → Bool) (l : List Row) :
    (sortByCreated l).filter p = sortByCreated (l.filter p) := by
  unfold sortByCreated
  induction l with
  | nil => rfl
  | cons a l ih =>
    simp only [List.insertionSort]
    rw [filter_orderedInsert p a _ (List.sorted_insertionSort rowLE l), ih, List.filter_cons]
    cases hpa : p a with
    | true => simp [List.insertionSort]
    | false => simp

theorem orderedInsert_ne_nil (a : Row) (l : List Row) :
    List.orderedInsert rowLE a l ≠ [] := by
  have hlen := List.orderedInsert_length rowLE l a
  intro hemp
  rw [hemp] at hlen
  simp at hlen

theorem getLast?_orderedInsert (a : Row) (l : List Row) (hs : List.Sorted rowLE l) :
    (List.orderedInsert rowLE a l).getLast? =
      some (match l.getLast? with
            | none => a
            | some b => if b.created_at < a.created_at then a else b) := by
  induction l with
  | nil => rfl
  | cons b t ih =>
    have hst : List.Sorted rowLE t := hs.of_cons
    by_cases hab : rowLE a b
    · rw [List.orderedInsert_of_le _ _ hab, List.getLast?_cons_cons]
      have hlast : ∀ c, (b :: t).getLast? = some c → rowLE a c := by
        intro c hc
        have hcmem : c ∈ b :: t := List.mem_of_mem_getLast? hc
        rcases List.mem_cons.1 hcmem with hcb | hct
        · exact hcb ▸ hab
        · exact trans_of rowLE hab (List.rel_of_sorted_cons hs c hct)
      cases hgl : (b :: t).getLast? with
      | none => simp at hgl
      | some c =>
        have hac : rowLE a c := hlast c hgl
        have : ¬ c.created_at < a.created_at := not_lt.2 hac
        simp only [this, if_false]
    · simp only [List.orderedInsert, if_neg hab]
      have hba : b.created_at < a.created_at := lt_of_not_ge (fun hge => hab hge)
      cases t with
      | nil =>
        simp only [List.orderedInsert, List.getLast?_cons_cons]
        show (some a) = _
        simp [List.getLast?_singleton, hba]
      | cons c ts =>
        obtain ⟨y, ys, hys⟩ :
            ∃ y ys, List.orderedInsert rowLE a (c :: ts) = y :: ys := by
          cases hoi : List.orderedInsert rowLE a (c :: ts) with
          | nil => exact absurd hoi (orderedInsert_ne_nil a (c :: ts))
          | cons y ys => exact ⟨y, ys, rfl⟩
        rw [hys, List.getLast?_cons_cons, ← hys, ih hst, List.getLast?_cons_cons]

theorem getLast?_sortByCreated (l : List Row) :
    (sortByCreated l).getLast? = argmaxLast l := by
  induction l with
  | nil => rfl
  | cons a l ih =>
    show (List.orderedInsert rowLE a (List.insertionSort rowLE l)).getLast? = _
    rw [getLast?_orderedInsert a _ (List.sorted_insertionSort rowLE l)]
    show some _ = argmaxLast (a :: l)
    rw [show (List.insertionSort rowLE l).getLast? = argmaxLast l from ih]
    simp only [argmaxLast]
    cases argmaxLast l with
    | none => rfl
    | some b =>
      by_cases hba : b.created_at < a.created_at
      · have : ¬ a.created_at ≤ b.created_at := not_le.2 hba
        simp only [hba, if_true, this, if_false]
      · have : a.created_at ≤ b.created_at := not_lt.1 hba
        simp only [hba, if_false, this, if_true]

theorem argmaxLast_eq_none (l : List Row) : argmaxLast l = none ↔ l = [] := by
  cases l with
  | nil => simp [argmaxLast]
  | cons a l =>
    simp only [argmaxLast]
    cases hl : argmaxLast l with
    | none => simp
    | some b =>
      by_cases h : a.created_at ≤ b.created_at
      · simp [h]
      · simp [h]

theorem argmaxLast_split (l : List Row) (r : Row) (h : argmaxLast l = some r) :
    ∃ l1 l2, l = l1 ++ r :: l2 ∧ (∀ s ∈ l1, s.created_at ≤ r.created_at) ∧
      (∀ s ∈ l2, s.created_at < r.created_at) := by
  induction l generalizing r with
  | nil => simp [argmaxLast] at h
  | cons a l ih =>
    cases hl : argmaxLast l with
    | none =>
      simp only [argmaxLast, hl] at h
      have hle : l = [] := (argmaxLast_eq_none l).1 hl
      subst hle
      have har : a = r := Option.some.inj h
      subst har
      exact ⟨[], [], rfl, by simp, by simp⟩
    | some b =>
      simp only [argmaxLast, hl] at h
      by_cases hab : a.created_at ≤ b.created_at
      · rw [if_pos hab] at h
        have hbr : b = r := Option.some.inj h
        subst hbr
        obtain ⟨l1, l2, heq, h1, h2⟩ := ih b hl
        refine ⟨a :: l1, l2, by rw [heq]; rfl, ?_, h2⟩
        intro s hs
        rcases List.mem_cons.1 hs with hsa | hsl
        · exact hsa ▸ hab
        · exact h1 s hsl
      · rw [if_neg hab] at h
        have har : a = r := Option.some.inj h
        subst har
        have hba : b.created_at < a.created_at := not_le.1 hab
        obtain ⟨l1, l2, heq, h1, h2⟩ := ih b hl
        refine ⟨[], l, rfl, by simp, ?_⟩
        intro s hs
        rw [heq] at hs
        rcases List.mem_append.1 hs with hs1 | hs2
        · exact lt_of_le_of_lt (h1 s hs1) hba
        · rcases List.mem_cons.1 hs2 with hsb | hsl
          · exact hsb ▸ hba
          · exact lt_trans (h2 s hsl) hba

/-! ### Counting helpers for the percentage lemmas -/

theorem indicator_sum_zero (d : List String) (b : String) (h : b ∉ d) :
    (d.map (fun a => if b == a then 1 else 0)).sum = 0 := by
  induction d with
  | nil => rfl
  | cons x d ih =>
    have hbx : b ≠ x := fun hbe => h (hbe ▸ List.mem_cons_self x d)
    have hd : b ∉ d := fun hbd => h (List.mem_cons_of_mem x hbd)
    simp only [List.map_cons, List.sum_cons, beq_eq_false_iff_ne.2 hbx, Bool.false_eq_true,
      if_false, ih hd, Nat.zero_add]

theorem indicator_sum_one (d : List String) (b : String) (hn : d.Nodup) (hb : b ∈ d) :
    (d.map (fun a => if b == a then 1 else 0)).sum = 1 := by
  induction d with
  | nil => exact absurd hb (List.not_mem_nil b)
  | cons x d ih =>
    rw [List.nodup_cons] at hn
    rcases List.mem_cons.1 hb with hbx | hbd
    · subst hbx
      have hnd : b ∉ d := hn.1
      simp only [List.map_cons, List.sum_cons, beq_self_eq_true, if_true,
        indicator_sum_zero d b hnd]
    · have hbx : b ≠ x := fun hbe => hn.1 (hbe ▸ hbd)
      simp only [List.map_cons, List.sum_cons, beq_eq_false_iff_ne.2 hbx, Bool.false_eq_true,
        if_false, ih hn.2 hbd, Nat.zero_add]

theorem sum_count_over (l : List String) :
    ∀ d : List String, d.Nodup → (∀ x ∈ l, x ∈ d) →
      (d.map (fun a => l.count a)).sum = l.length := by
  induction l with
  | nil =>
    intro d _ _
    simp [List.count_nil]
  | cons b l ih =>
    intro d hn hmem
    have hcount : ∀ a : String, (b :: l).count a = l.count a + if b == a then 1 else 0 := by
      intro a
      simp [List.count_cons]
    calc (d.map (fun a => (b :: l).count a)).sum
        = (d.map (fun a => l.count a + if b == a then 1 else 0)).sum := by
          apply congrArg
          exact List.map_congr_left (fun a _ => hcount a)
      _ = (d.map (fun a => l.count a)).sum +
            (d.map (fun a => if b == a then 1 else 0)).sum := by
          rw [← List.sum_map_add]
      _ = l.length + 1 := by
          rw [ih d hn (fun x hx => hmem x (List.mem_cons_of_mem b hx)),
            indicator_sum_one d b hn (hmem b (List.mem_cons_self b l))]
      _ = (b :: l).length := by simp

theorem sum_count_dedup (l : List String) :
    (l.dedup.map (fun a => l.count a)).sum = l.length :=
  sum_count_over l l.dedup l.nodup_dedup (fun x hx => List.mem_dedup.2 hx)

theorem sum_map_cast_q (d : List String) (f : String → Nat) :
    (d.map (fun a => ((f a : Nat) : ℚ))).sum = (((d.map f).sum : Nat) : ℚ) := by
  induction d with
  | nil => simp
  | cons x d ih => simp [ih]

theorem sum_map_mul_const_q (d : List String) (f : String → ℚ) (c : ℚ) :
    (d.map (fun a => f a * c)).sum = (d.map f).sum * c := by
  induction d with
  | nil => simp
  | cons x d ih => simp [ih, add_mul]

theorem pct_sum_eq_100 (l : List String) (h : l ≠ []) :
    (l.dedup.map (fun a =>
      ((l.count a : ℚ) / (((l.dedup.map (fun b => l.count b)).sum : Nat) : ℚ)) * 100)).sum
      = 100 := by
  have hT : (l.dedup.map (fun b => l.count b)).sum = l.length := sum_count_dedup l
  rw [hT]
  have hlen : ((l.length : Nat) : ℚ) ≠ 0 := by
    rw [Nat.cast_ne_zero]
    exact fun h0 => h (List.length_eq_zero.1 h0)
  have hterm : ∀ c : ℚ, c / ((l.length : Nat) : ℚ) * 100 =
      c * (100 / ((l.length : Nat) : ℚ)) := fun c => by ring
  calc (l.dedup.map (fun a =>
          ((l.count a : ℚ) / ((l.length : Nat) : ℚ)) * 100)).sum
      = (l.dedup.map (fun a =>
          (l.count a : ℚ) * (100 / ((l.length : Nat) : ℚ)))).sum := by
        apply congrArg
        exact List.map_congr_left (fun a _ => hterm ((l.count a : ℚ)))
    _ = (l.dedup.map (fun a => ((l.count a : Nat) : ℚ))).sum *
          (100 / ((l.length : Nat) : ℚ)) := sum_map_mul_const_q _ _ _
    _ = (((l.dedup.map (fun a => l.count a)).sum : Nat) : ℚ) *
          (100 / ((l.length : Nat) : ℚ)) := by rw [sum_map_cast_q]
    _ = ((l.length : Nat) : ℚ) * (100 / ((l.length : Nat) : ℚ)) := by rw [hT]
    _ = 100 := by
        field_simp

theorem sum_map_insertionSort_pct (L : List (String × ℚ)) :
    ((List.insertionSort pctGE L).map (fun x => x.2)).sum = (L.map (fun x => x.2)).sum :=
  ((List.perm_insertionSort pctGE L).map (fun x => x.2)).sum_eq

theorem sum_filter_map_insertionSort_userPct (L : List (String × String × ℚ))
    (p : (String × String × ℚ) → Bool) :
    (((List.insertionSort userPctLE L).filter p).map (fun x => x.2.2)).sum =
      ((L.filter p).map (fun x => x.2.2)).sum :=
  (((List.perm_insertionSort userPctLE L).filter p).map (fun x => x.2.2)).sum_eq

theorem global_pct_sum (df : List Row) (pre : String)
    (h : matchedAnswerValues df pre ≠ []) :
    ((calculate_aggregated_answer_percentages df pre).map (fun x => x.2)).sum = 100 := by
  have h' : (df.filter (fun r => strStartsWith (strOfQuestion r.question) pre)).filterMap
      (fun r => r.answer) ≠ [] := h
  simp only [calculate_aggregated_answer_percentages]
  split
  · rename_i hE
    exfalso
    apply h'
    rw [List.isEmpty_iff.1 hE]
    rfl
  · split
    · rename_i hE htot
      exfalso
      simp only [List.map_map, Function.comp_def] at htot
      have hlen : (df.filter (fun r => strStartsWith (strOfQuestion r.question) pre)).filterMap
          (fun r => r.answer) = [] := by
        apply List.length_eq_zero.1
        rw [← sum_count_dedup]
        exact htot
      exact h' hlen
    · rename_i hE htot
      rw [sum_map_insertionSort_pct]
      simp only [List.map_map, Function.comp_def]
      exact pct_sum_eq_100 _ h'

theorem pairs_filter_map (m : List Row) (u : String) :
    ((m.filterMap (fun r => r.answer.map (fun a => (r.hashed_user_id, a)))).filter
        (fun q => q.1 == u)).map (fun q => q.2) =
      (m.filter (fun r => r.hashed_user_id == u)).filterMap (fun r => r.answer) := by
  induction m with
  | nil => rfl
  | cons r m ih =>
    by_cases hu : r.hashed_user_id = u
    · cases ha : r.answer with
      | none => simp [List.filterMap_cons, List.filter_cons, ha, hu, ih]
      | some a => simp [List.filterMap_cons, List.filter_cons, ha, hu, ih]
    · cases ha : r.answer with
      | none => simp [List.filterMap_cons, List.filter_cons, ha, beq_eq_false_iff_ne.2 hu, ih]
      | some a => simp [List.filterMap_cons, List.filter_cons, ha, beq_eq_false_iff_ne.2 hu, ih]

theorem filter_flatMap_keyed (users : List String)
    (f : String → List (String × String × ℚ))
    (hkey : ∀ v x, x ∈ f v → x.1 = v) (u : String) (hn : users.Nodup) :
    (users.flatMap f).filter (fun x => x.1 == u) = if u ∈ users then f u else [] := by
  induction users with
  | nil => simp
  | cons v vs ih =>
    rw [List.nodup_cons] at hn
    rw [List.flatMap_cons, List.filter_append]
    by_cases hv : v = u
    · subst hv
      have h1 : (f v).filter (fun x => x.1 == v) = f v :=
        List.filter_eq_self.2 (fun x hx => by
          rw [beq_iff_eq]
          exact hkey v x hx)
      have h2 : (vs.flatMap f).filter (fun x => x.1 == v) = [] := by
        apply List.filter_eq_nil_iff.2
        intro x hx
        obtain ⟨w, hw, hxw⟩ := List.mem_flatMap.1 hx
        rw [beq_iff_eq, hkey w x hxw]
        exact fun hwv => hn.1 (hwv ▸ hw)
      rw [h1, h2, List.append_nil, if_pos (List.mem_cons_self v vs)]
    · have h1 : (f v).filter (fun x => x.1 == u) = [] := by
        apply List.filter_eq_nil_iff.2
        intro x hx
        rw [beq_iff_eq, hkey v x hx]
        exact hv
      rw [h1, List.nil_append, ih hn.2]
      by_cases hm : u ∈ vs
      · rw [if_pos hm, if_pos (List.mem_cons_of_mem v hm)]
      · rw [if_neg hm, if_neg (by
          intro hmem
          rcases List.mem_cons.1 hmem with hcv | hcs
          · exact hv hcv.symm
          · exact hm hcs)]

theorem user_pct_sum (df : List Row) (pre : String) (u : String)
    (h : userAnswerValues df pre u ≠ []) :
    (((calculate_drought_answer_percentages df pre).filter (fun x => x.1 == u)).map
      (fun x => x.2.2)).sum = 100 := by
  have hua : ((((df.filter (fun r => strStartsWith (strOfQuestion r.question) pre)).filterMap
      (fun r => r.answer.map (fun a => (r.hashed_user_id, a)))).filter
        (fun q => q.1 == u)).map (fun q => q.2)) ≠ [] := by
    rw [pairs_filter_map]
    exact h
  have hmem : u ∈ (((df.filter (fun r => strStartsWith (strOfQuestion r.question) pre)).filterMap
      (fun r => r.answer.map (fun a => (r.hashed_user_id, a)))).map (fun q => q.1)).dedup := by
    rw [List.mem_dedup]
    have hfilne : (((df.filter (fun r => strStartsWith (strOfQuestion r.question) pre)).filterMap
        (fun r => r.answer.map (fun a => (r.hashed_user_id, a)))).filter
          (fun q => q.1 == u)) ≠ [] := by
      intro hemp
      apply hua
      rw [hemp]
      rfl
    obtain ⟨x, hx⟩ := List.exists_mem_of_ne_nil _ hfilne
    have hx2 := List.mem_filter.1 hx
    exact List.mem_map.2 ⟨x, hx2.1, (beq_iff_eq.1 hx2.2)⟩
  simp only [calculate_drought_answer_percentages]
  rw [sum_filter_map_insertionSort_userPct]
  rw [filter_flatMap_keyed _ _
    (fun v x hx => by
      obtain ⟨a, ha, hax⟩ := List.mem_map.1 hx
      rw [← hax]) u (List.nodup_dedup _)]
  rw [if_pos hmem]
  simp only [List.map_map, Function.comp_def]
  have := pct_sum_eq_100
    ((((df.filter (fun r => strStartsWith (strOfQuestion r.question) pre)).filterMap
        (fun r => r.answer.map (fun a => (r.hashed_user_id, a)))).filter
          (fun q => q.1 == u)).map (fun q => q.2)) hua
  exact this

/-! ### Claim C1 -/

/-- A matched "Now," question whose answer cell is missing (NaN). -/
def c1_missing_row : Row :=
  { user_id := "u1", hashed_user_id := "h1", session_id := "s1", step_name := none,
    question := some "Now, for droughts, how would you assess risk?", answer := none,
    created_at := 0 }

/-- A matched "Now," question with a present answer. -/
def c1_answered_row : Row :=
  { user_id := "u1", hashed_user_id := "h1", session_id := "s1", step_name := none,
    question := some "Now, for droughts, how would you assess risk?", answer := some "A lot",
    created_at := 0 }

/-- C1, counterexample to the claim as stated: on a dataset whose only row
matches the prefix "Now," but has a missing answer, the global-mode breakdown
is empty, so its percentages sum to 0, not 100, even though at least one row's
question matches the prefix. -/
theorem percentages_sum_counterexample :
    [c1_missing_row].filter (fun r => strStartsWith (strOfQuestion r.question) "Now,") ≠ [] ∧
    ((calculate_aggregated_answer_percentages [c1_missing_row] "Now,").map
      (fun x => x.2)).sum ≠ 100 := by
  constructor
  · decide
  · have hcalc : calculate_aggregated_answer_percentages [c1_missing_row] "Now," = [] := rfl
    rw [hcalc]
    simp

/-- C1 (amended): if at least one row matching the prefix has a non-missing
answer, the global-mode percentages sum to exactly 100; and for every
`hashed_user_id` with at least one matched non-missing answer, that entity's
per-entity percentages sum to exactly 100. -/
theorem percentages_sum_to_100 (df : List Row) (pre : String) (u : String) :
    (matchedAnswerValues df pre ≠ [] →
      ((calculate_aggregated_answer_percentages df pre).map (fun x => x.2)).sum = 100) ∧
    (userAnswerValues df pre u ≠ [] →
      (((calculate_drought_answer_percentages df pre).filter (fun x => x.1 == u)).map
        (fun x => x.2.2)).sum = 100) :=
  ⟨global_pct_sum df pre, user_pct_sum df pre u⟩

/-- C1, witness: both parts at a concrete one-row dataset. -/
theorem percentages_sum_to_100_witness :
    ((calculate_aggregated_answer_percentages [c1_answered_row] "Now,").map
      (fun x => x.2)).sum = 100 ∧
    (((calculate_drought_answer_percentages [c1_answered_row] "Now,").filter
        (fun x => x.1 == "h1")).map (fun x => x.2.2)).sum = 100 :=
  ⟨(percentages_sum_to_100 [c1_answered_row] "Now," "h1").1 (by decide),
   (percentages_sum_to_100 [c1_answered_row] "Now," "h1").2 (by decide)⟩

/-! ### Claims C2 and C9 -/

/-- C2: for a question group, the latest-response extraction keeps exactly one
row for each user that answered within the group, namely a row of that user
whose `created_at` is maximal, and among equal maximal timestamps the last one
in input order (stable sort then keep-last): everything after the kept row in
the user's input-order sublist has a strictly smaller timestamp. -/
theorem latest_response_extraction (g : List String) (df : List Row) (u : String)
    (h : (df.filter (inGroup g)).filter (fun s => s.user_id == u) ≠ []) :
    ∃ r l1 l2,
      (latest_rows g df).filter (fun s => s.user_id == u) = [r] ∧
      (df.filter (inGroup g)).filter (fun s => s.user_id == u) = l1 ++ r :: l2 ∧
      (∀ s ∈ l1, s.created_at ≤ r.created_at) ∧
      (∀ s ∈ l2, s.created_at < r.created_at) := by
  have h1 : (latest_rows g df).filter (fun s => s.user_id == u) =
      ((sortByCreated (df.filter (inGroup g))).filter
        (fun s => s.user_id == u)).getLast?.toList :=
    filter_user_dedupKeepLast _ u
  rw [filter_sortByCreated, getLast?_sortByCreated] at h1
  cases hmax : argmaxLast ((df.filter (inGroup g)).filter (fun s => s.user_id == u)) with
  | none => exact absurd ((argmaxLast_eq_none _).1 hmax) h
  | some r =>
    obtain ⟨l1, l2, heq, hle, hlt⟩ := argmaxLast_split _ r hmax
    refine ⟨r, l1, l2, ?_, heq, hle, hlt⟩
    rw [h1, hmax]
    rfl

/-- Two same-user player-select events with equal timestamps: the tie. -/
def c2_row_first : Row :=
  { user_id := "u2", hashed_user_id := "h2", session_id := "s2",
    step_name := some "player_select", question := none, answer := some "Farmer",
    created_at := 5 }

/-- The later (in input order) of the two tied events. -/
def c2_row_second : Row :=
  { user_id := "u2", hashed_user_id := "h2", session_id := "s2",
    step_name := some "playerselect", question := none, answer := some "Pet Owner",
    created_at := 5 }

/-- C2, witness: the extraction on a two-row tied dataset. -/
theorem latest_response_extraction_witness :
    ∃ r l1 l2,
      (latest_rows ["player_select", "playerselect"] [c2_row_first, c2_row_second]).filter
        (fun s => s.user_id == "u2") = [r] ∧
      ([c2_row_first, c2_row_second].filter
          (inGroup ["player_select", "playerselect"])).filter
        (fun s => s.user_id == "u2") = l1 ++ r :: l2 ∧
      (∀ s ∈ l1, s.created_at ≤ r.created_at) ∧
      (∀ s ∈ l2, s.created_at < r.created_at) :=
  latest_response_extraction ["player_select", "playerselect"]
    [c2_row_first, c2_row_second] "u2" (by decide)

/-- C9: the latest-response extraction is idempotent: applying it to its own
output returns that output unchanged. -/
theorem latest_extraction_idempotent (g : List String) (df : List Row) :
    latest_rows g (latest_rows g df) = latest_rows g df := by
  have hmem : ∀ r ∈ latest_rows g df, inGroup g r = true := by
    intro r hr
    have h1 : r ∈ sortByCreated (df.filter (inGroup g)) :=
      (dedupKeepLast_sublist _).subset hr
    have h2 : r ∈ df.filter (inGroup g) :=
      (List.perm_insertionSort rowLE _).subset h1
    exact List.of_mem_filter h2
  have hfix : (latest_rows g df).filter (inGroup g) = latest_rows g df :=
    List.filter_eq_self.2 hmem
  have hsorted : List.Sorted rowLE (latest_rows g df) :=
    List.Pairwise.sublist (dedupKeepLast_sublist _) (List.sorted_insertionSort rowLE _)
  show dedupKeepLast (sortByCreated ((latest_rows g df).filter (inGroup g))) = latest_rows g df
  rw [hfix]
  rw [show sortByCreated (latest_rows g df) = latest_rows g df from hsorted.insertionSort_eq]
  exact dedupKeepLast_eq_self _ (dedupKeepLast_users_nodup _)

/-! ### Claim C3 -/

theorem mem_pd_merge (L R : List (String × Option String)) (u : String) :
    (∃ m ∈ pd_merge L R, m.user_id = u) ↔
      ((∃ a ∈ L, a.1 = u) ∧ (∃ b ∈ R, b.1 = u)) := by
  constructor
  · rintro ⟨m, hm, hu⟩
    obtain ⟨a, ha, hmm⟩ := List.mem_flatMap.1 hm
    obtain ⟨b, hb, hbm⟩ := List.mem_map.1 hmm
    have hbf := List.mem_filter.1 hb
    have hmu : m.user_id = a.1 := by rw [← hbm]
    have hba : b.1 = a.1 := beq_iff_eq.1 hbf.2
    exact ⟨⟨a, ha, by rw [← hmu, hu]⟩, ⟨b, hbf.1, by rw [hba, ← hmu, hu]⟩⟩
  · rintro ⟨⟨a, ha, hau⟩, ⟨b, hb, hbu⟩⟩
    refine ⟨{ user_id := a.1, player_type := a.2, evacuate_choice := b.2 }, ?_, hau⟩
    apply List.mem_flatMap.2
    exact ⟨a, ha,
      List.mem_map.2 ⟨b, List.mem_filter.2 ⟨hb, beq_iff_eq.2 (hbu.trans hau.symm)⟩, rfl⟩⟩

/-- C3: the inner merge of the player-type extraction and the
evacuation-choice extraction contains exactly the users present in both
extractions. -/
theorem merged_users_iff (df : List Row) (u : String) :
    (∃ m ∈ pd_merge (player_types df) (evac_choices df), m.user_id = u) ↔
      ((∃ a ∈ player_types df, a.1 = u) ∧ (∃ b ∈ evac_choices df, b.1 = u)) :=
  mem_pd_merge (player_types df) (evac_choices df) u

/-! ### Claim C5 -/

/-- A row timestamped 2026-01-01T23:59:59Z (epoch seconds 1767311999). -/
def c5_row : Row :=
  { user_id := "u5", hashed_user_id := "h5", session_id := "s5",
    step_name := some "evacuate_select", question := none,
    answer := some "Yep, evacuate!", created_at := 1767311999 }

/-- C5: the time-window pre-filter keeps exactly the rows whose `created_at`
lies in the inclusive interval given by the optional bounds; in particular a
start bound of 2026-01-02T00:00:00Z (epoch 1767312000) excludes the row
timestamped 2026-01-01T23:59:59Z. -/
theorem time_window_filter (st et : Option Int) (df : List Row) (r : Row) :
    (r ∈ timeFilter st et df ↔ r ∈ df ∧ inWindow st et r.created_at) ∧
    timeFilter (some 1767312000) none [c5_row] = [] := by
  refine ⟨?_, by decide⟩
  cases st with
  | none =>
    cases et with
    | none => simp [timeFilter, inWindow]
    | some e => simp [timeFilter, inWindow, List.mem_filter]
  | some s =>
    cases et with
    | none => simp [timeFilter, inWindow, List.mem_filter]
    | some e =>
      simp only [timeFilter, inWindow, List.mem_filter, decide_eq_true_eq]
      tauto

/-! ### Claim C8 -/

theorem normalizeAnswer_idem (a : Option String) :
    normalizeAnswer (normalizeAnswer a) = normalizeAnswer a := by
  cases a with
  | none => rfl
  | some s =>
    by_cases hs : s = "Petowner"
    · simp [normalizeAnswer, hs]
    · simp [normalizeAnswer, hs]

theorem normalizeRow_idem (r : Row) : normalizeRow (normalizeRow r) = normalizeRow r := by
  simp [normalizeRow, normalizeAnswer_idem]

theorem normalizeAnswer_ne_petowner (a : Option String) :
    normalizeAnswer a ≠ some "Petowner" := by
  cases a with
  | none => simp [normalizeAnswer]
  | some s =>
    by_cases hs : s = "Petowner"
    · simp [normalizeAnswer, hs]
    · simp [normalizeAnswer, hs]

theorem timeFilter_map_norm (st et : Option Int) (df : List Row) :
    timeFilter st et (df.map normalizeRow) = (timeFilter st et df).map normalizeRow := by
  cases st with
  | none =>
    cases et with
    | none => rfl
    | some e => simp [timeFilter, List.filter_map, Function.comp_def, normalizeRow]
  | some s =>
    cases et with
    | none => simp [timeFilter, List.filter_map, Function.comp_def, normalizeRow]
    | some e => simp [timeFilter, List.filter_map, Function.comp_def, normalizeRow]

theorem isEmpty_map_norm (l : List Row) : (l.map normalizeRow).isEmpty = l.isEmpty := by
  cases l with
  | nil => rfl
  | cons r l => rfl

theorem mem_latest_rows_sub (g : List String) (df : List Row) (r : Row)
    (h : r ∈ latest_rows g df) : r ∈ df :=
  List.mem_of_mem_filter
    ((List.perm_insertionSort rowLE _).subset ((dedupKeepLast_sublist _).subset h))

theorem latest_map_answer (g : List String) (df : List Row) (x : String × Option String)
    (h : x ∈ (latest_rows g df).map (fun r => (r.user_id, r.answer))) :
    ∃ r ∈ df, x.2 = r.answer := by
  obtain ⟨r, hr, hx⟩ := List.mem_map.1 h
  exact ⟨r, mem_latest_rows_sub g df r hr, by rw [← hx]⟩

theorem mem_pd_merge_fields (L R : List (String × Option String)) (m : Merged)
    (h : m ∈ pd_merge L R) :
    (∃ a ∈ L, m.player_type = a.2) ∧ (∃ b ∈ R, m.evacuate_choice = b.2) := by
  obtain ⟨a, ha, hmm⟩ := List.mem_flatMap.1 h
  obtain ⟨b, hb, hbm⟩ := List.mem_map.1 hmm
  exact ⟨⟨a, ha, by rw [← hbm]⟩, ⟨b, (List.mem_filter.1 hb).1, by rw [← hbm]⟩⟩

theorem mem_map_norm_answer (df : List Row) (r : Row) (h : r ∈ df.map normalizeRow) :
    r.answer ≠ some "Petowner" := by
  obtain ⟨r0, _, hr⟩ := List.mem_map.1 h
  rw [← hr]
  show (normalizeRow r0).answer ≠ some "Petowner"
  simp only [normalizeRow]
  exact normalizeAnswer_ne_petowner r0.answer

/-- C8: answers are synonym-normalized before any grouping: pre-normalizing
the input does not change the output of `process_data`, and no merged result
ever carries the un-normalized label "Petowner". -/
theorem normalization_before_grouping (df : List Row) (st et : Option Int) :
    process_data (df.map normalizeRow) st et = process_data df st et ∧
    (∀ out, process_data df st et = some out →
      ∀ m ∈ out, m.player_type ≠ some "Petowner" ∧ m.evacuate_choice ≠ some "Petowner") := by
  constructor
  · simp only [process_data]
    rw [timeFilter_map_norm, isEmpty_map_norm]
    by_cases hE : (timeFilter st et df).isEmpty = true
    · rw [if_pos hE, if_pos hE]
    · rw [if_neg hE, if_neg hE]
      rw [List.map_map]
      have hcomp : (timeFilter st et df).map (normalizeRow ∘ normalizeRow) =
          (timeFilter st et df).map normalizeRow :=
        List.map_congr_left (fun r _ => by
          show normalizeRow (normalizeRow r) = normalizeRow r
          exact normalizeRow_idem r)
      rw [hcomp]
  · intro out hout m hm
    simp only [process_data] at hout
    by_cases hE : (timeFilter st et df).isEmpty = true
    · rw [if_pos hE] at hout
      exact absurd hout (by simp)
    · rw [if_neg hE] at hout
      have hout2 := Option.some.inj hout
      rw [← hout2] at hm
      obtain ⟨⟨a, ha, hpa⟩, ⟨b, hb, heb⟩⟩ := mem_pd_merge_fields _ _ m hm
      obtain ⟨r1, hr1, hx1⟩ := latest_map_answer _ _ a ha
      obtain ⟨r2, hr2, hx2⟩ := latest_map_answer _ _ b hb
      constructor
      · rw [hpa, hx1]
        exact mem_map_norm_answer _ r1 hr1
      · rw [heb, hx2]
        exact mem_map_norm_answer _ r2 hr2

/-- The un-normalized player-type event. -/
def c8_row_player : Row :=
  { user_id := "u8", hashed_user_id := "h8", session_id := "s8",
    step_name := some "player_select", question := none, answer := some "Petowner",
    created_at := 1 }

/-- The same user's evacuation choice. -/
def c8_row_evac : Row :=
  { user_id := "u8", hashed_user_id := "h8", session_id := "s8",
    step_name := some "evacuate_select", question := none,
    answer := some "Yep, evacuate!", created_at := 2 }

/-- The merged output row for the two events above. -/
def c8_merged : Merged :=
  { user_id := "u8", player_type := some "Pet Owner",
    evacuate_choice := some "Yep, evacuate!" }

/-- C8, witness: the merged output of a dataset containing "Petowner" carries
only the normalized label. -/
theorem normalization_before_grouping_witness :
    c8_merged.player_type ≠ some "Petowner" ∧ c8_merged.evacuate_choice ≠ some "Petowner" :=
  (normalization_before_grouping [c8_row_player, c8_row_evac] none none).2
    [c8_merged] (by decide) c8_merged (by decide)

/-! ### Claim C4 -/

/-- C4: the conditional breakdown first computes the condition session set; if
it is empty the outcome is the "no sessions found" state and never a present
table; otherwise any emitted table is exactly the global-mode "Now," breakdown
of the rows whose `session_id` is in the set, and an empty-but-present table
is never emitted. -/
theorem conditional_breakdown (df : List Row) :
    (sessions_with_2009 df = [] → third_output df = ThirdOut.noSessions) ∧
    (∀ t, third_output df = ThirdOut.table t →
        sessions_with_2009 df ≠ [] ∧
        t = calculate_aggregated_answer_percentages
          (df.filter (fun r => (sessions_with_2009 df).contains r.session_id)) "Now," ∧
        t ≠ []) ∧
    (sessions_with_2009 df ≠ [] → third_output df ≠ ThirdOut.noSessions) ∧
    third_output df ≠ ThirdOut.table [] := by
  by_cases hS : (sessions_with_2009 df).isEmpty = true
  · have h3 : third_output df = ThirdOut.noSessions := by
      simp only [third_output]
      rw [if_pos hS]
    refine ⟨fun _ => h3, ?_, ?_, ?_⟩
    · intro t ht
      rw [h3] at ht
      exact absurd ht (by simp)
    · intro hne
      exact absurd (List.isEmpty_iff.1 hS) hne
    · rw [h3]
      simp
  · have hSe : sessions_with_2009 df ≠ [] := fun he => hS (by rw [he]; rfl)
    by_cases hB : (calculate_aggregated_answer_percentages
        (df.filter (fun r => (sessions_with_2009 df).contains r.session_id)) "Now,").isEmpty
        = true
    · have h3 : third_output df = ThirdOut.noNow := by
        simp only [third_output]
        rw [if_neg hS, if_pos hB]
      refine ⟨fun he => absurd he hSe, ?_, fun _ => by rw [h3]; simp, by rw [h3]; simp⟩
      intro t ht
      rw [h3] at ht
      exact absurd ht (by simp)
    · have h3 : third_output df = ThirdOut.table
          (calculate_aggregated_answer_percentages
            (df.filter (fun r => (sessions_with_2009 df).contains r.session_id)) "Now,") := by
        simp only [third_output]
        rw [if_neg hS, if_neg hB]
      refine ⟨fun he => absurd he hSe, ?_, fun _ => by rw [h3]; simp, ?_⟩
      · intro t ht
        rw [h3] at ht
        have hteq := (ThirdOut.table.inj ht).symm
        refine ⟨hSe, hteq, ?_⟩
        intro hte
        apply hB
        rw [← hteq, hte]
        rfl
      · rw [h3]
        intro hcontra
        apply hB
        rw [ThirdOut.table.inj hcontra]
        rfl

/-- A session whose "First" answer is the literal "2009". -/
def c4_row_first : Row :=
  { user_id := "u4", hashed_user_id := "h4", session_id := "s4",
    step_name := none, question := some "First, which year was the worst?",
    answer := some "2009", created_at := 0 }

/-- A "Now," answer in the same session. -/
def c4_row_now : Row :=
  { user_id := "u4", hashed_user_id := "h4", session_id := "s4",
    step_name := none, question := some "Now, for droughts, how bad?",
    answer := some "Very bad", created_at := 1 }

/-- C4, witness: the empty-condition case on the empty dataset and the
nonempty case on a two-row dataset. -/
theorem conditional_breakdown_witness :
    third_output [] = ThirdOut.noSessions ∧
    (sessions_with_2009 [c4_row_first, c4_row_now] ≠ [] ∧
      calculate_aggregated_answer_percentages
          ([c4_row_first, c4_row_now].filter
            (fun r => (sessions_with_2009 [c4_row_first, c4_row_now]).contains r.session_id))
          "Now," =
        calculate_aggregated_answer_percentages
          ([c4_row_first, c4_row_now].filter
            (fun r => (sessions_with_2009 [c4_row_first, c4_row_now]).contains r.session_id))
          "Now," ∧
      calculate_aggregated_answer_percentages
          ([c4_row_first, c4_row_now].filter
            (fun r => (sessions_with_2009 [c4_row_first, c4_row_now]).contains r.session_id))
          "Now," ≠ []) :=
  ⟨(conditional_breakdown []).1 rfl,
   (conditional_breakdown [c4_row_first, c4_row_now]).2.1
     (calculate_aggregated_answer_percentages
       ([c4_row_first, c4_row_now].filter
         (fun r => (sessions_with_2009 [c4_row_first, c4_row_now]).contains r.session_id))
       "Now,") rfl⟩

/-! ### Claim C6 -/

/-- C6: whenever a required column of the invoked mode is absent, both scripts
abort with exit status 1 and an error naming exactly the absent required
columns. -/
theorem missing_columns_abort (cols : List String) (rows : List Row) (sd : Option Int) :
    (∀ c, c ∈ required_cols.filter (fun c2 => !cols.contains c2) ↔
        (c ∈ required_cols ∧ c ∉ cols)) ∧
    ((∃ c ∈ required_cols, c ∉ cols) →
      process_and_output_percentages (CsvInput.table cols rows) sd =
          DFOutcome.errMissing (required_cols.filter (fun c2 => !cols.contains c2)) ∧
        exit_code (process_and_output_percentages (CsvInput.table cols rows) sd) = 1 ∧
        required_cols.filter (fun c2 => !cols.contains c2) ≠ []) ∧
    ((∃ c ∈ drought_required_cols, c ∉ cols) →
      run_drought_script (CsvInput.table cols rows) =
          DroughtOutcome.errMissing
            (drought_required_cols.filter (fun c2 => !cols.contains c2)) ∧
        drought_exit_code (run_drought_script (CsvInput.table cols rows)) = 1 ∧
        drought_required_cols.filter (fun c2 => !cols.contains c2) ≠ []) := by
  refine ⟨?_, ?_, ?_⟩
  · intro c
    simp [List.mem_filter]
  · rintro ⟨c, hc, hnc⟩
    have hm : required_cols.filter (fun c2 => !cols.contains c2) ≠ [] := by
      intro hemp
      have hcm : c ∈ required_cols.filter (fun c2 => !cols.contains c2) :=
        List.mem_filter.2 ⟨hc, by simp [hnc]⟩
      rw [hemp] at hcm
      exact (List.not_mem_nil c) hcm
    have hI : (!(required_cols.filter (fun c2 => !cols.contains c2)).isEmpty) = true := by
      cases hfe : (required_cols.filter (fun c2 => !cols.contains c2)).isEmpty
      · rfl
      · exact absurd (List.isEmpty_iff.1 hfe) hm
    have hout : process_and_output_percentages (CsvInput.table cols rows) sd =
        DFOutcome.errMissing (required_cols.filter (fun c2 => !cols.contains c2)) := by
      simp only [process_and_output_percentages]
      rw [if_pos hI]
    exact ⟨hout, by rw [hout]; rfl, hm⟩
  · rintro ⟨c, hc, hnc⟩
    have hm : drought_required_cols.filter (fun c2 => !cols.contains c2) ≠ [] := by
      intro hemp
      have hcm : c ∈ drought_required_cols.filter (fun c2 => !cols.contains c2) :=
        List.mem_filter.2 ⟨hc, by simp [hnc]⟩
      rw [hemp] at hcm
      exact (List.not_mem_nil c) hcm
    have hI : (!(drought_required_cols.filter (fun c2 => !cols.contains c2)).isEmpty) = true := by
      cases hfe : (drought_required_cols.filter (fun c2 => !cols.contains c2)).isEmpty
      · rfl
      · exact absurd (List.isEmpty_iff.1 hfe) hm
    have hout : run_drought_script (CsvInput.table cols rows) =
        DroughtOutcome.errMissing (drought_required_cols.filter (fun c2 => !cols.contains c2)) := by
      simp only [run_drought_script]
      rw [if_pos hI]
    exact ⟨hout, by rw [hout]; rfl, hm⟩

/-- C6, witness: an input exposing only a `question` column. -/
theorem missing_columns_abort_witness :
    (process_and_output_percentages (CsvInput.table ["question"] []) none =
        DFOutcome.errMissing (required_cols.filter (fun c2 => !(["question"].contains c2))) ∧
      exit_code (process_and_output_percentages (CsvInput.table ["question"] []) none) = 1 ∧
      required_cols.filter (fun c2 => !(["question"].contains c2)) ≠ []) ∧
    (run_drought_script (CsvInput.table ["question"] []) =
        DroughtOutcome.errMissing
          (drought_required_cols.filter (fun c2 => !(["question"].contains c2))) ∧
      drought_exit_code (run_drought_script (CsvInput.table ["question"] [])) = 1 ∧
      drought_required_cols.filter (fun c2 => !(["question"].contains c2)) ≠ []) :=
  ⟨(missing_columns_abort ["question"] [] none).2.1 (by decide),
   (missing_columns_abort ["question"] [] none).2.2 (by decide)⟩

/-! ### Claim C7 -/

/-- C7, counterexample to the claim as stated: a header-only input (all
required columns present, zero data rows), with no date filter, parses to no
rows yet produces a normal report and exits 0, not 1. -/
theorem empty_input_handling_counterexample :
    process_and_output_percentages (CsvInput.table required_cols []) none =
        DFOutcome.report [] none ThirdOut.noSessions ∧
      exit_code (process_and_output_percentages (CsvInput.table required_cols []) none) = 0 := by
  exact ⟨rfl, rfl⟩

/-- C7 (amended): completely unparsable input (`EmptyDataError`) aborts with
exit 1; a table emptied by the user's date filter gets the graceful "no data"
message and exit 0; and a table that parses to zero rows without a date filter
proceeds normally with exit 0. -/
theorem empty_input_handling (cols : List String) (rows : List Row) (s : Int)
    (sd : Option Int) :
    (process_and_output_percentages CsvInput.empty sd = DFOutcome.errEmptyData ∧
      exit_code (process_and_output_percentages CsvInput.empty sd) = 1) ∧
    (required_cols.filter (fun c => !cols.contains c) = [] →
      rows.filter (fun r => decide (s ≤ r.created_at)) = [] →
      process_and_output_percentages (CsvInput.table cols rows) (some s) =
          DFOutcome.gracefulNoData ∧
        exit_code (process_and_output_percentages (CsvInput.table cols rows) (some s)) = 0) ∧
    (required_cols.filter (fun c => !cols.contains c) = [] →
      exit_code (process_and_output_percentages (CsvInput.table cols rows) none) = 0) := by
  refine ⟨⟨rfl, rfl⟩, ?_, ?_⟩
  · intro hmiss hfil
    have hout : process_and_output_percentages (CsvInput.table cols rows) (some s) =
        DFOutcome.gracefulNoData := by
      simp only [process_and_output_percentages]
      rw [if_neg (by rw [hmiss]; simp)]
      show (if (rows.filter (fun r => decide (s ≤ r.created_at))).isEmpty = true
          then DFOutcome.gracefulNoData
          else DFOutcome.report
            (calculate_aggregated_answer_percentages
              (rows.filter (fun r => decide (s ≤ r.created_at))) "Now,")
            (second_output (rows.filter (fun r => decide (s ≤ r.created_at))))
            (third_output (rows.filter (fun r => decide (s ≤ r.created_at))))) =
          DFOutcome.gracefulNoData
      rw [if_pos (by rw [hfil]; rfl)]
    exact ⟨hout, by rw [hout]; rfl⟩
  · intro hmiss
    simp only [process_and_output_percentages]
    rw [if_neg (by rw [hmiss]; simp)]
    rfl

/-- C7, witness: graceful exit 0 when the date filter empties a valid table,
and exit 0 for the same table without a filter. -/
theorem empty_input_handling_witness :
    (process_and_output_percentages (CsvInput.table required_cols [c1_missing_row]) (some 1) =
        DFOutcome.gracefulNoData ∧
      exit_code (process_and_output_percentages
        (CsvInput.table required_cols [c1_missing_row]) (some 1)) = 0) ∧
    exit_code (process_and_output_percentages
      (CsvInput.table required_cols [c1_missing_row]) none) = 0 :=
  ⟨(empty_input_handling required_cols [c1_missing_row] 1 none).2.1 (by decide) (by decide),
   (empty_input_handling required_cols [c1_missing_row] 1 none).2.2 (by decide)⟩

/-! ### Claim C10 -/

theorem filterMap_filter_isSome {β : Type} (g : Row → Option β) (p : Row → Bool)
    (hp : ∀ r, p r = (g r).isSome) (l : List Row) :
    (l.filter p).filterMap g = l.filterMap g := by
  induction l with
  | nil => rfl
  | cons r l ih =>
    cases hg : g r with
    | none =>
      have hpr : p r = false := by rw [hp r, hg]; rfl
      simp [List.filter_cons, hpr, List.filterMap_cons, hg, ih]
    | some b =>
      have hpr : p r = true := by rw [hp r, hg]; rfl
      simp [List.filter_cons, hpr, List.filterMap_cons, hg, ih]

theorem filter_comm_rows (p q : Row → Bool) (l : List Row) :
    (l.filter p).filter q = (l.filter q).filter p := by
  rw [List.filter_filter, List.filter_filter]
  exact List.filter_congr (fun a _ => by rw [Bool.and_comm])

theorem agg_ignores_missing (df : List Row) (pre : String) :
    calculate_aggregated_answer_percentages (df.filter (fun r => r.answer.isSome)) pre =
      calculate_aggregated_answer_percentages df pre := by
  have hfq : (df.filter (fun r => r.answer.isSome)).filter
      (fun r => strStartsWith (strOfQuestion r.question) pre) =
      (df.filter (fun r => strStartsWith (strOfQuestion r.question) pre)).filter
        (fun r => r.answer.isSome) := filter_comm_rows _ _ df
  have hvals : ((df.filter (fun r => strStartsWith (strOfQuestion r.question) pre)).filter
      (fun r => r.answer.isSome)).filterMap (fun r => r.answer) =
      (df.filter (fun r => strStartsWith (strOfQuestion r.question) pre)).filterMap
        (fun r => r.answer) :=
    filterMap_filter_isSome _ _ (fun r => rfl) _
  simp only [calculate_aggregated_answer_percentages, hfq, hvals]
  by_cases hC1 : (((df.filter (fun r => strStartsWith (strOfQuestion r.question) pre)).filter
      (fun r => r.answer.isSome)).isEmpty) = true
  · have hv : (df.filter (fun r => strStartsWith (strOfQuestion r.question) pre)).filterMap
        (fun r => r.answer) = [] := by
      rw [← hvals, List.isEmpty_iff.1 hC1]
      rfl
    rw [if_pos hC1]
    by_cases hC2 : ((df.filter (fun r => strStartsWith (strOfQuestion r.question) pre)).isEmpty)
        = true
    · rw [if_pos hC2]
    · rw [if_neg hC2, if_pos (by rw [hv]; rfl)]
  · rw [if_neg hC1]
    have hC2 : ¬ ((df.filter (fun r => strStartsWith (strOfQuestion r.question) pre)).isEmpty)
        = true := by
      intro hf
      apply hC1
      rw [List.isEmpty_iff.1 hf]
      rfl
    rw [if_neg hC2]

theorem drought_ignores_missing (df : List Row) (pre : String) :
    calculate_drought_answer_percentages (df.filter (fun r => r.answer.isSome)) pre =
      calculate_drought_answer_percentages df pre := by
  have hfq : (df.filter (fun r => r.answer.isSome)).filter
      (fun r => strStartsWith (strOfQuestion r.question) pre) =
      (df.filter (fun r => strStartsWith (strOfQuestion r.question) pre)).filter
        (fun r => r.answer.isSome) := filter_comm_rows _ _ df
  have hpairs : ((df.filter (fun r => strStartsWith (strOfQuestion r.question) pre)).filter
      (fun r => r.answer.isSome)).filterMap
        (fun r => r.answer.map (fun a => (r.hashed_user_id, a))) =
      (df.filter (fun r => strStartsWith (strOfQuestion r.question) pre)).filterMap
        (fun r => r.answer.map (fun a => (r.hashed_user_id, a))) :=
    filterMap_filter_isSome _ _ (fun r => by cases r.answer <;> rfl) _
  simp only [calculate_drought_answer_percentages, hfq, hpairs]

theorem agg_categories (df : List Row) (pre : String) :
    ∀ x ∈ calculate_aggregated_answer_percentages df pre,
      ∃ r ∈ df, strStartsWith (strOfQuestion r.question) pre = true ∧
        r.answer = some x.1 := by
  intro x hx
  simp only [calculate_aggregated_answer_percentages] at hx
  split at hx
  · exact absurd hx (List.not_mem_nil x)
  · split at hx
    · exact absurd hx (List.not_mem_nil x)
    · rw [List.mem_insertionSort] at hx
      obtain ⟨c, hc, hcx⟩ := List.mem_map.1 hx
      obtain ⟨a, ha, hac⟩ := List.mem_map.1 hc
      have hav : a ∈ (df.filter (fun r => strStartsWith (strOfQuestion r.question) pre)).filterMap
          (fun r => r.answer) := List.mem_dedup.1 ha
      obtain ⟨r, hr, hra⟩ := List.mem_filterMap.1 hav
      have hrf := List.mem_filter.1 hr
      have hx1 : x.1 = a := by rw [← hcx, ← hac]
      exact ⟨r, hrf.1, hrf.2, by rw [hra, hx1]⟩

theorem drought_categories (df : List Row) (pre : String) :
    ∀ x ∈ calculate_drought_answer_percentages df pre,
      ∃ r ∈ df, strStartsWith (strOfQuestion r.question) pre = true ∧
        r.hashed_user_id = x.1 ∧ r.answer = some x.2.1 := by
  intro x hx
  simp only [calculate_drought_answer_percentages] at hx
  rw [List.mem_insertionSort] at hx
  obtain ⟨u, hu, hxu⟩ := List.mem_flatMap.1 hx
  obtain ⟨a, ha, hax⟩ := List.mem_map.1 hxu
  have hav : a ∈ (((df.filter (fun r => strStartsWith (strOfQuestion r.question) pre)).filterMap
      (fun r => r.answer.map (fun a2 => (r.hashed_user_id, a2)))).filter
        (fun q => q.1 == u)).map (fun q => q.2) := List.mem_dedup.1 ha
  obtain ⟨qq, hq, hqa⟩ := List.mem_map.1 hav
  have hqf := List.mem_filter.1 hq
  obtain ⟨r, hr, hrq⟩ := List.mem_filterMap.1 hqf.1
  have hrf := List.mem_filter.1 hr
  cases hans : r.answer with
  | none =>
    rw [hans] at hrq
    exact absurd hrq (by simp)
  | some b =>
    rw [hans] at hrq
    have hqq : (r.hashed_user_id, b) = qq := by simpa using hrq
    have hx1 : x.1 = u := by rw [← hax]
    have hx21 : x.2.1 = a := by rw [← hax]
    refine ⟨r, hrf.1, hrf.2, ?_, ?_⟩
    · have h1 : qq.1 = u := beq_iff_eq.1 hqf.2
      rw [hx1, ← h1, ← hqq]
    · rw [hans, hx21, ← hqa, ← hqq]

/-- C10: missing (NaN) answers contribute to neither the per-answer counts nor
the percentage denominators: dropping the missing-answer rows leaves both the
global and the per-entity breakdown unchanged, and every output category comes
from an actually present answer of a matched row. -/
theorem missing_answers_excluded (df : List Row) (pre : String) :
    (calculate_aggregated_answer_percentages (df.filter (fun r => r.answer.isSome)) pre =
       calculate_aggregated_answer_percentages df pre) ∧
    (calculate_drought_answer_percentages (df.filter (fun r => r.answer.isSome)) pre =
       calculate_drought_answer_percentages df pre) ∧
    (∀ x ∈ calculate_aggregated_answer_percentages df pre,
       ∃ r ∈ df, strStartsWith (strOfQuestion r.question) pre = true ∧
         r.answer = some x.1) ∧
    (∀ x ∈ calculate_drought_answer_percentages df pre,
       ∃ r ∈ df, strStartsWith (strOfQuestion r.question) pre = true ∧
         r.hashed_user_id = x.1 ∧ r.answer = some x.2.1) :=
  ⟨agg_ignores_missing df pre, drought_ignores_missing df pre,
   agg_categories df pre, drought_categories df pre⟩

/-- C10, witness: both category conjuncts at a concrete one-row dataset. -/
theorem missing_answers_excluded_witness :
    (∃ r ∈ [c1_answered_row],
        strStartsWith (strOfQuestion r.question) "Now," = true ∧
        r.answer = some "A lot") ∧
    (∃ r ∈ [c1_answered_row],
        strStartsWith (strOfQuestion r.question) "Now," = true ∧
        r.hashed_user_id = "h1" ∧ r.answer = some "A lot") := by
  have h1 : calculate_aggregated_answer_percentages [c1_answered_row] "Now," =
      [("A lot", (((1 : Nat) : ℚ) / ((1 : Nat) : ℚ)) * 100)] := rfl
  have h2 : calculate_drought_answer_percentages [c1_answered_row] "Now," =
      [("h1", "A lot", (((1 : Nat) : ℚ) / ((1 : Nat) : ℚ)) * 100)] := rfl
  exact ⟨(missing_answers_excluded [c1_answered_row] "Now,").2.2.1
      ("A lot", (((1 : Nat) : ℚ) / ((1 : Nat) : ℚ)) * 100)
      (by rw [h1]; exact List.mem_singleton.2 rfl),
    (missing_answers_excluded [c1_answered_row] "Now,").2.2.2
      ("h1", "A lot", (((1 : Nat) : ℚ) / ((1 : Nat) : ℚ)) * 100)
      (by rw [h2]; exact List.mem_singleton.2 rfl)⟩

end EvacAnalysis
